import Mathlib

/-!
Shallow embedding of the transaction-provenance core of
`src/rust/src/main.rs` (the tail of `main`, lines 138-209): the funding
resolver, the output classifier, the fee calculation and the report
writer.  Monetary amounts are modelled in satoshis (`Nat`): the Rust
`Amount` type is an integer number of satoshis and `to_btc`/`{:.8}`
render it with eight fractional digits, which `fmt8` below reproduces
exactly.  RPC failures propagated by `?` are modelled by `Outcome.err`;
Rust panics (`expect`, out-of-range indexing) by `Outcome.panicked`.
-/

namespace Provenance

/-- An error returned by the RPC client (`bitcoincore_rpc::Error`). -/
inductive RpcError : Type where
  | rpcErr (msg : String) : RpcError
deriving Repr, DecidableEq

/-- Result of `get_address_info`: only the `is_mine` field is consulted. -/
structure AddressInfo : Type where
  is_mine : Option Bool
deriving Repr, DecidableEq

/-- The script of a decoded output.  `address` is the singular field read by
the classifier loop; `addresses` is the (plural) field read by the funding
resolver.  Addresses are modelled by their canonical string form. -/
structure ScriptPubKey : Type where
  address : Option String
  addresses : List String
deriving Repr, DecidableEq

/-- A decoded transaction output: its value in satoshis and its script. -/
structure DecodedOutput : Type where
  value : Nat
  script_pub_key : ScriptPubKey
deriving Repr, DecidableEq

/-- A decoded transaction input: the reference to the previous output it
spends.  Both fields are absent for a coinbase input. -/
structure DecodedInput : Type where
  txid : Option String
  vout : Option Nat
deriving Repr, DecidableEq

/-- A decoded transaction: ordered inputs and ordered outputs. -/
structure DecodedTransaction : Type where
  txid : String
  vin : List DecodedInput
  vout : List DecodedOutput
deriving Repr, DecidableEq

/-- The RPC surface of `miner_wallet` consumed by the provenance core. -/
structure NodeClient : Type where
  getRawTransaction : String → Except RpcError String
  decodeRawTransaction : String → Except RpcError DecodedTransaction
  getAddressInfo : String → Except RpcError AddressInfo

/-- Outcome of a fallible step of `main`: success, an RPC error propagated
by `?`, or a Rust panic (`expect` / out-of-range indexing). -/
inductive Outcome (α : Type) : Type where
  | ok (a : α) : Outcome α
  | err (e : RpcError) : Outcome α
  | panicked (msg : String) : Outcome α
deriving Repr, DecidableEq

/-- Sequencing of outcomes: errors and panics short-circuit. -/
def Outcome.bind {α β : Type} : Outcome α → (α → Outcome β) → Outcome β
  | .ok a, f => f a
  | .err e, _ => .err e
  | .panicked m, _ => .panicked m

/-- Models the `?` operator on an RPC call result. -/
def liftExcept {α : Type} : Except RpcError α → Outcome α
  | .ok a => .ok a
  | .error e => .err e

/-- Models `Option::expect(msg)`: panics with `msg` on `None`. -/
def expectOpt {α : Type} : Option α → String → Outcome α
  | some a, _ => .ok a
  | none, msg => .panicked msg

/-- Models Rust slice indexing `&xs[i]`: panics when out of range. -/
def indexList {α : Type} (xs : List α) (i : Nat) : Outcome α :=
  match xs[i]? with
  | some x => .ok x
  | none => .panicked "index out of bounds"

/-- The dereference of a previous output once the first input's reference
`(prev_txid, prev_vout)` has been extracted (main.rs lines 152-159): fetch
and decode the previous transaction, index its `vout`, and return the first
listed address (empty string when there is none) with the output's value. -/
def fetchPrevOutput (client : NodeClient) (prev_txid : String) (prev_vout : Nat) :
    Outcome (String × Nat) :=
  (liftExcept (client.getRawTransaction prev_txid)).bind fun prev_tx =>
  (liftExcept (client.decodeRawTransaction prev_tx)).bind fun prev_decoded =>
  (indexList prev_decoded.vout prev_vout).bind fun prev_output =>
  .ok (prev_output.script_pub_key.addresses.headD "", prev_output.value)

/-- The funding resolver (main.rs lines 148-159): take the first input of
the decoded transaction, `expect` its `txid` and `vout`, and dereference
the previous output. -/
def resolveFunding (client : NodeClient) (decoded_tx : DecodedTransaction) :
    Outcome (String × Nat) :=
  (indexList decoded_tx.vin 0).bind fun input =>
  (expectOpt input.txid "Input should have txid").bind fun prev_txid =>
  (expectOpt input.vout "Input should have vout").bind fun prev_vout =>
  fetchPrevOutput client prev_txid prev_vout

/-- The four mutable locals of the classification loop (main.rs 162-165). -/
structure ClassState : Type where
  trader_output_address : String
  trader_output_amount : Nat
  miner_change_address : String
  miner_change_amount : Nat
deriving Repr, DecidableEq

/-- The initial classification state: empty addresses, zero amounts. -/
def initialClassState : ClassState :=
  { trader_output_address := ""
    trader_output_amount := 0
    miner_change_address := ""
    miner_change_amount := 0 }

/-- One iteration of the classification loop (main.rs lines 167-185):
skip outputs with no address; a recipient match overwrites the trader
fields; otherwise an ownership lookup that succeeds with `is_mine = true`
overwrites the change fields, and lookup failure is swallowed. -/
def classifyStep (client : NodeClient) (trader_address : String)
    (st : ClassState) (vout : DecodedOutput) : ClassState :=
  match vout.script_pub_key.address with
  | none => st
  | some addr_str =>
    if addr_str == trader_address then
      { st with trader_output_address := addr_str, trader_output_amount := vout.value }
    else
      match client.getAddressInfo addr_str with
      | .ok address_info =>
        if address_info.is_mine.getD false then
          { st with miner_change_address := addr_str, miner_change_amount := vout.value }
        else st
      | .error _ => st

/-- The output classifier: the `for vout in &decoded_tx.vout` loop
(main.rs lines 167-185) over the initial state. -/
def classify (client : NodeClient) (trader_address : String)
    (outs : List DecodedOutput) : ClassState :=
  outs.foldl (classifyStep client trader_address) initialClassState

/-- The effective ownership test of the classifier's else-branch: `true`
exactly when `get_address_info` succeeds and reports `is_mine = Some true`;
a lookup error or an absent `is_mine` count as not owned. -/
def ownedFlag (client : NodeClient) (addr_str : String) : Bool :=
  match client.getAddressInfo addr_str with
  | .ok address_info => address_info.is_mine.getD false
  | .error _ => false

/-- The reported fee (main.rs lines 192-193 and 205):
`tx_fee = miner_input_amount - (trader_output_amount + miner_change_amount)`
followed by `tx_fee.abs()`. -/
def computeFee (funding recipient chg : Nat) : Nat :=
  ((funding : Int) - ((recipient : Int) + (chg : Int))).natAbs

/-- The eight fractional digits of a satoshi amount, most significant
first, zero-padded (what `{:.8}` prints after the decimal point). -/
def frac8 (sats : Nat) : String :=
  String.mk ((List.range 8).map fun i => Nat.digitChar (sats / 10 ^ (7 - i) % 10))

/-- Rendering of a satoshi amount as `to_btc()` printed with `{:.8}`:
the integral BTC part, a dot, and exactly eight fractional digits. -/
def fmt8 (sats : Nat) : String :=
  toString (sats / 100000000) ++ "." ++ frac8 (sats % 100000000)

/-- The fully resolved record written to the artifact (spec §3); amounts
in satoshis, the fee already in absolute value. -/
structure ProvenanceRecord : Type where
  txid : String
  fundingAddress : String
  fundingAmount : Nat
  recipientAddress : String
  recipientAmount : Nat
  changeAddress : String
  changeAmount : Nat
  fee : Nat
  blockHeight : Nat
  blockHash : String
deriving Repr, DecidableEq

/-- The ten lines emitted by the ten `writeln!` calls (main.rs 197-206),
in source order. -/
def reportLines (r : ProvenanceRecord) : List String :=
  [r.txid,
   r.fundingAddress,
   fmt8 r.fundingAmount,
   r.recipientAddress,
   fmt8 r.recipientAmount,
   r.changeAddress,
   fmt8 r.changeAmount,
   fmt8 r.fee,
   toString r.blockHeight,
   r.blockHash]

/-- The full text of the artifact: each line followed by a newline. -/
def renderReport (r : ProvenanceRecord) : String :=
  String.join ((reportLines r).map (fun line => line ++ "\n"))

/-- The destination path of the artifact (main.rs line 196). -/
def outPath : String := "../out.txt"

/-- `File::create` + the `writeln!` sequence on a file system modelled as
a map from paths to contents: the destination is truncated and replaced
unconditionally; other paths are untouched. -/
def writeReport (fs : String → Option String) (r : ProvenanceRecord) :
    String → Option String :=
  fun p => if p = outPath then some (renderReport r) else fs p

/-- The provenance tail of `main` (lines 148-207), after the target
transaction has been decoded and its confirmation block resolved: resolve
the funding output, classify the outputs, compute the fee, and write the
report.  An RPC error or panic before the write leaves the file system
unchanged. -/
def runMainTail (client : NodeClient) (fs : String → Option String)
    (txid trader_address : String) (decoded_tx : DecodedTransaction)
    (block_height : Nat) (block_hash : String) :
    Outcome Unit × (String → Option String) :=
  match resolveFunding client decoded_tx with
  | .err e => (.err e, fs)
  | .panicked m => (.panicked m, fs)
  | .ok (miner_input_address, miner_input_amount) =>
    let st := classify client trader_address decoded_tx.vout
    let record : ProvenanceRecord :=
      { txid := txid
        fundingAddress := miner_input_address
        fundingAmount := miner_input_amount
        recipientAddress := st.trader_output_address
        recipientAmount := st.trader_output_amount
        changeAddress := st.miner_change_address
        changeAmount := st.miner_change_amount
        fee := computeFee miner_input_amount st.trader_output_amount st.miner_change_amount
        blockHeight := block_height
        blockHash := block_hash }
    (.ok (), writeReport fs record)

/-- Does an output match the recipient: the guard of the loop's then-branch
(`addr_str == trader_address` on a present address). -/
def matchesRecipient (trader_address : String) (o : DecodedOutput) : Bool :=
  match o.script_pub_key.address with
  | some addr_str => addr_str == trader_address
  | none => false

/-- Does an output get recorded as change: a present address that differs
from the recipient's and passes the ownership test. -/
def matchesChange (client : NodeClient) (trader_address : String)
    (o : DecodedOutput) : Bool :=
  match o.script_pub_key.address with
  | some addr_str => !(addr_str == trader_address) && ownedFlag client addr_str
  | none => false

lemma classifyStep_trader_of_match (client : NodeClient) (t : String)
    (st : ClassState) (o : DecodedOutput) (addr_str : String)
    (haddr : o.script_pub_key.address = some addr_str)
    (hm : addr_str = t) :
    (classifyStep client t st o).trader_output_address = addr_str ∧
    (classifyStep client t st o).trader_output_amount = o.value ∧
    (classifyStep client t st o).miner_change_address = st.miner_change_address ∧
    (classifyStep client t st o).miner_change_amount = st.miner_change_amount := by
  simp [classifyStep, haddr, hm]

lemma classifyStep_trader_of_not_match (client : NodeClient) (t : String)
    (st : ClassState) (o : DecodedOutput)
    (h : matchesRecipient t o = false) :
    (classifyStep client t st o).trader_output_address = st.trader_output_address ∧
    (classifyStep client t st o).trader_output_amount = st.trader_output_amount := by
  unfold matchesRecipient at h
  cases haddr : o.script_pub_key.address with
  | none => simp [classifyStep, haddr]
  | some addr_str =>
    rw [haddr] at h
    have hne : ¬(addr_str = t) := by
      intro hcontra
      rw [hcontra] at h
      simp at h
    simp only [classifyStep, haddr]
    rw [if_neg (by simpa using hne)]
    cases hinfo : client.getAddressInfo addr_str with
    | ok info =>
      cases hmine : info.is_mine.getD false <;> simp [hmine]
    | error e => simp

lemma classifyStep_change_of_match (client : NodeClient) (t : String)
    (st : ClassState) (o : DecodedOutput) (addr_str : String)
    (haddr : o.script_pub_key.address = some addr_str)
    (hne : ¬(addr_str = t))
    (hown : ownedFlag client addr_str = true) :
    (classifyStep client t st o).miner_change_address = addr_str ∧
    (classifyStep client t st o).miner_change_amount = o.value := by
  unfold ownedFlag at hown
  cases hinfo : client.getAddressInfo addr_str with
  | ok info =>
    rw [hinfo] at hown
    simp only at hown
    simp [classifyStep, haddr, hne, hinfo, hown]
  | error e => rw [hinfo] at hown; exact absurd hown (by simp)

lemma classifyStep_change_of_not_match (client : NodeClient) (t : String)
    (st : ClassState) (o : DecodedOutput)
    (h : matchesChange client t o = false) :
    (classifyStep client t st o).miner_change_address = st.miner_change_address ∧
    (classifyStep client t st o).miner_change_amount = st.miner_change_amount := by
  unfold matchesChange at h
  cases haddr : o.script_pub_key.address with
  | none => simp [classifyStep, haddr]
  | some addr_str =>
    rw [haddr] at h
    simp only [Bool.and_eq_false_iff, Bool.not_eq_false] at h
    cases h with
    | inl hm =>
      have hm' : addr_str = t := eq_of_beq (by simpa using hm)
      simp [classifyStep, haddr, hm']
    | inr hown =>
      by_cases hm : addr_str = t
      case pos => simp [classifyStep, haddr, hm]
      case neg =>
        unfold ownedFlag at hown
        cases hinfo : client.getAddressInfo addr_str with
        | ok info =>
          rw [hinfo] at hown
          simp only at hown
          simp [classifyStep, haddr, hm, hinfo, hown]
        | error e => simp [classifyStep, haddr, hm, hinfo]

lemma foldl_trader_fields (client : NodeClient) (t : String)
    (outs : List DecodedOutput) :
    ∀ st : ClassState,
      ((outs.foldl (classifyStep client t) st).trader_output_address
        = (((outs.filter (matchesRecipient t)).getLast?).map
            (fun o => o.script_pub_key.address.getD "")).getD st.trader_output_address)
      ∧ ((outs.foldl (classifyStep client t) st).trader_output_amount
        = (((outs.filter (matchesRecipient t)).getLast?).map
            (fun o => o.value)).getD st.trader_output_amount) := by
  induction outs using List.reverseRecOn with
  | nil => intro st; simp
  | append_singleton l o ih =>
    intro st
    rw [List.foldl_append, List.filter_append]
    simp only [List.foldl_cons, List.foldl_nil]
    cases hm : matchesRecipient t o with
    | true =>
      have haddr : ∃ a, o.script_pub_key.address = some a ∧ a = t := by
        unfold matchesRecipient at hm
        cases haddr : o.script_pub_key.address with
        | none => rw [haddr] at hm; exact absurd hm (by simp)
        | some a =>
          rw [haddr] at hm
          exact ⟨a, rfl, eq_of_beq hm⟩
      obtain ⟨a, haddr, hbeq⟩ := haddr
      obtain ⟨h1, h2, _, _⟩ :=
        classifyStep_trader_of_match client t (l.foldl (classifyStep client t) st) o a haddr hbeq
      rw [h1, h2]
      simp [List.filter_cons, hm, List.getLast?_concat, haddr]
    | false =>
      obtain ⟨h1, h2⟩ :=
        classifyStep_trader_of_not_match client t (l.foldl (classifyStep client t) st) o hm
      rw [h1, h2]
      simp only [List.filter_cons, hm, Bool.false_eq_true, if_false, List.filter_nil,
        List.append_nil]
      exact ih st

lemma foldl_change_fields (client : NodeClient) (t : String)
    (outs : List DecodedOutput) :
    ∀ st : ClassState,
      ((outs.foldl (classifyStep client t) st).miner_change_address
        = (((outs.filter (matchesChange client t)).getLast?).map
            (fun o => o.script_pub_key.address.getD "")).getD st.miner_change_address)
      ∧ ((outs.foldl (classifyStep client t) st).miner_change_amount
        = (((outs.filter (matchesChange client t)).getLast?).map
            (fun o => o.value)).getD st.miner_change_amount) := by
  induction outs using List.reverseRecOn with
  | nil => intro st; simp
  | append_singleton l o ih =>
    intro st
    rw [List.foldl_append, List.filter_append]
    simp only [List.foldl_cons, List.foldl_nil]
    cases hm : matchesChange client t o with
    | true =>
      have haddr : ∃ a, o.script_pub_key.address = some a ∧ ¬(a = t)
          ∧ ownedFlag client a = true := by
        unfold matchesChange at hm
        cases haddr : o.script_pub_key.address with
        | none => rw [haddr] at hm; exact absurd hm (by simp)
        | some a =>
          rw [haddr] at hm
          simp only [Bool.and_eq_true, Bool.not_eq_true'] at hm
          exact ⟨a, rfl, ne_of_beq_false hm.1, hm.2⟩
      obtain ⟨a, haddr, hbeq, hown⟩ := haddr
      obtain ⟨h1, h2⟩ :=
        classifyStep_change_of_match client t (l.foldl (classifyStep client t) st) o a haddr hbeq hown
      rw [h1, h2]
      simp [List.filter_cons, hm, List.getLast?_concat, haddr]
    | false =>
      obtain ⟨h1, h2⟩ :=
        classifyStep_change_of_not_match client t (l.foldl (classifyStep client t) st) o hm
      rw [h1, h2]
      simp only [List.filter_cons, hm, Bool.false_eq_true, if_false, List.filter_nil,
        List.append_nil]
      exact ih st

lemma matchesRecipient_of_matchesChange (client : NodeClient) (t : String)
    (o : DecodedOutput) (h : matchesChange client t o = true) :
    matchesRecipient t o = false := by
  unfold matchesChange at h
  unfold matchesRecipient
  cases haddr : o.script_pub_key.address with
  | none => rfl
  | some a =>
    rw [haddr] at h
    simp only [Bool.and_eq_true, Bool.not_eq_true'] at h
    exact h.1

lemma filter_change_of_filter_not_recipient (client : NodeClient) (t : String)
    (outs : List DecodedOutput) :
    (outs.filter (fun o => !(matchesRecipient t o))).filter (matchesChange client t)
      = outs.filter (matchesChange client t) := by
  rw [List.filter_filter]
  apply List.filter_congr
  intro o _
  cases hmc : matchesChange client t o with
  | true => simp [matchesRecipient_of_matchesChange client t o hmc]
  | false => simp

/-- A node client every call of which fails: used to exercise the paths
that never consult the node successfully. -/
def errClient : NodeClient :=
  { getRawTransaction := fun _ => .error (.rpcErr "unreachable node")
    decodeRawTransaction := fun _ => .error (.rpcErr "unreachable node")
    getAddressInfo := fun _ => .error (.rpcErr "unknown address") }

/-- A decoded output paying `v` satoshis to the single standard address `a`. -/
def mkOutput (v : Nat) (a : String) : DecodedOutput :=
  { value := v, script_pub_key := { address := some a, addresses := [a] } }

/-- C1 (amended): among the outputs whose address equals the recipient
address, the LAST one in vout order determines the recipient fields of the
record (each later match overwrites the earlier ones), and matching
outputs never contribute to the change fields: the change fields are those
computed from the non-matching outputs alone. -/
theorem classify_recipient_last_match_wins (client : NodeClient) (t : String)
    (outs : List DecodedOutput) :
    (classify client t outs).trader_output_address
      = (((outs.filter (matchesRecipient t)).getLast?).map
          (fun o => o.script_pub_key.address.getD "")).getD "" ∧
    (classify client t outs).trader_output_amount
      = (((outs.filter (matchesRecipient t)).getLast?).map
          (fun o => o.value)).getD 0 ∧
    (classify client t outs).miner_change_address
      = (classify client t
          (outs.filter (fun o => !(matchesRecipient t o)))).miner_change_address ∧
    (classify client t outs).miner_change_amount
      = (classify client t
          (outs.filter (fun o => !(matchesRecipient t o)))).miner_change_amount := by
  obtain ⟨ht1, ht2⟩ := foldl_trader_fields client t outs initialClassState
  obtain ⟨hc1, hc2⟩ := foldl_change_fields client t outs initialClassState
  obtain ⟨hc1f, hc2f⟩ := foldl_change_fields client t
    (outs.filter (fun o => !(matchesRecipient t o))) initialClassState
  refine ⟨ht1, ht2, ?_, ?_⟩
  · unfold classify
    rw [hc1, hc1f, filter_change_of_filter_not_recipient]
  · unfold classify
    rw [hc2, hc2f, filter_change_of_filter_not_recipient]

/-- C1 counterexample: with two outputs both paying the recipient address
"T" (values 100 and 200 satoshis), the classifier records the LAST match's
value 200, not the first match's value 100 as the claim states. -/
theorem classify_first_match_cex :
    (classify errClient "T" [mkOutput 100 "T", mkOutput 200 "T"]).trader_output_amount
      = 200 ∧
    ¬((classify errClient "T" [mkOutput 100 "T", mkOutput 200 "T"]).trader_output_amount
      = 100) := by
  constructor
  · decide
  · decide

/-- C10: when several non-recipient outputs are owned by the wallet, the
LAST such output in vout order determines the change fields: each later
owned match overwrites the previously recorded change address and amount. -/
theorem classify_change_last_owned_wins (client : NodeClient) (t : String)
    (outs : List DecodedOutput) :
    (classify client t outs).miner_change_address
      = (((outs.filter (matchesChange client t)).getLast?).map
          (fun o => o.script_pub_key.address.getD "")).getD "" ∧
    (classify client t outs).miner_change_amount
      = (((outs.filter (matchesChange client t)).getLast?).map
          (fun o => o.value)).getD 0 := by
  obtain ⟨hc1, hc2⟩ := foldl_change_fields client t outs initialClassState
  exact ⟨hc1, hc2⟩

/-- C8: if no output's address equals the recipient address the recipient
fields keep their initial empty/zero values, and if the ownership test
fails or answers false on every non-recipient address the change fields
keep their initial empty/zero values; classification is a total function
and does not fail in either case. -/
theorem classify_defaults_when_absent (client : NodeClient) (t : String)
    (outs : List DecodedOutput) :
    ((∀ o ∈ outs, ¬(o.script_pub_key.address = some t)) →
      (classify client t outs).trader_output_address = "" ∧
      (classify client t outs).trader_output_amount = 0) ∧
    ((∀ o ∈ outs, ∀ a, o.script_pub_key.address = some a → ¬(a = t) →
        ownedFlag client a = false) →
      (classify client t outs).miner_change_address = "" ∧
      (classify client t outs).miner_change_amount = 0) := by
  constructor
  · intro h
    have hf : outs.filter (matchesRecipient t) = [] := by
      rw [List.filter_eq_nil_iff]
      intro o ho
      unfold matchesRecipient
      cases haddr : o.script_pub_key.address with
      | none => simp
      | some a =>
        intro hbeq
        exact h o ho (by rw [haddr, eq_of_beq hbeq])
    obtain ⟨ht1, ht2⟩ := foldl_trader_fields client t outs initialClassState
    unfold classify
    rw [ht1, ht2, hf]
    exact ⟨rfl, rfl⟩
  · intro h
    have hf : outs.filter (matchesChange client t) = [] := by
      rw [List.filter_eq_nil_iff]
      intro o ho
      unfold matchesChange
      cases haddr : o.script_pub_key.address with
      | none => simp
      | some a =>
        intro hbeq
        simp only [Bool.and_eq_true, Bool.not_eq_true'] at hbeq
        exact absurd hbeq.2
          (by rw [h o ho a haddr (ne_of_beq_false hbeq.1)]; simp)
    obtain ⟨hc1, hc2⟩ := foldl_change_fields client t outs initialClassState
    unfold classify
    rw [hc1, hc2, hf]
    exact ⟨rfl, rfl⟩

/-- C8 witness: on a single output paying address "X" with a recipient
address "T" and a client whose ownership lookups all fail, both the
recipient and the change fields are empty/zero. -/
theorem classify_defaults_when_absent_witness :
    ((classify errClient "T" [mkOutput 7 "X"]).trader_output_address = "" ∧
     (classify errClient "T" [mkOutput 7 "X"]).trader_output_amount = 0) ∧
    ((classify errClient "T" [mkOutput 7 "X"]).miner_change_address = "" ∧
     (classify errClient "T" [mkOutput 7 "X"]).miner_change_amount = 0) :=
  ⟨(classify_defaults_when_absent errClient "T" [mkOutput 7 "X"]).1 (by decide),
   (classify_defaults_when_absent errClient "T" [mkOutput 7 "X"]).2
     (fun _ _ _ _ _ => rfl)⟩

/-- The previous (funding) transaction used by concrete witnesses: one
output of 50 BTC to address "A". -/
def wPrevTx : DecodedTransaction :=
  { txid := "p", vin := [], vout := [mkOutput 5000000000 "A"] }

/-- A node client whose fetch/decode calls always resolve to `wPrevTx`
and whose ownership lookups fail. -/
def wClient : NodeClient :=
  { getRawTransaction := fun _ => .ok "rawp"
    decodeRawTransaction := fun _ => .ok wPrevTx
    getAddressInfo := fun _ => .error (.rpcErr "unknown address") }

/-- The target transaction used by concrete witnesses: a single input
spending output 0 of `wPrevTx`. -/
def wTx : DecodedTransaction :=
  { txid := "t", vin := [{ txid := some "p", vout := some 0 }], vout := [] }

/-- C2: for a confirmed transaction with at least one input, the funding
resolver dereferences exactly the first input's (txid, vout) reference:
it fetches and decodes the previous transaction, selects the output at the
referenced index, and returns that output's first listed address (the
empty string when the script carries none) and its value. -/
theorem resolveFunding_first_input (client : NodeClient) (tx : DecodedTransaction)
    (input : DecodedInput) (prev_txid : String) (prev_vout : Nat)
    (prev_tx : String) (prev_decoded : DecodedTransaction) (prev_output : DecodedOutput)
    (h0 : tx.vin[0]? = some input)
    (h1 : input.txid = some prev_txid)
    (h2 : input.vout = some prev_vout)
    (h3 : client.getRawTransaction prev_txid = .ok prev_tx)
    (h4 : client.decodeRawTransaction prev_tx = .ok prev_decoded)
    (h5 : prev_decoded.vout[prev_vout]? = some prev_output) :
    resolveFunding client tx
      = .ok (prev_output.script_pub_key.addresses.headD "", prev_output.value) := by
  simp [resolveFunding, fetchPrevOutput, indexList, expectOpt, liftExcept, Outcome.bind,
    h0, h1, h2, h3, h4, h5]

/-- C2 witness: on the concrete client and transaction the resolver
returns funding address "A" and amount 50 BTC (5000000000 satoshis). -/
theorem resolveFunding_first_input_witness :
    resolveFunding wClient wTx = .ok ("A", 5000000000) :=
  resolveFunding_first_input wClient wTx { txid := some "p", vout := some 0 }
    "p" 0 "rawp" wPrevTx (mkOutput 5000000000 "A") rfl rfl rfl rfl rfl rfl

/-- C3: the reported fee is the absolute value of
`fundingAmount - (recipientAmount + changeAmount)`; it is never negative;
and it is rendered with the integral part, a dot, and the exact eight
fractional digits of the satoshi value, with no further rounding. -/
theorem computeFee_abs_nonneg (funding recipient chg : Nat) :
    (computeFee funding recipient chg : Int)
      = |(funding : Int) - ((recipient : Int) + (chg : Int))| ∧
    0 ≤ (computeFee funding recipient chg : Int) ∧
    fmt8 (computeFee funding recipient chg)
      = toString (computeFee funding recipient chg / 100000000) ++ "."
        ++ frac8 (computeFee funding recipient chg % 100000000) := by
  refine ⟨?_, ?_, rfl⟩
  · exact (Int.abs_eq_natAbs _).symm
  · exact Int.ofNat_nonneg _

/-- A node client all whose ownership lookups claim the address is owned
by the wallet; fetch/decode calls fail. -/
def ownClient : NodeClient :=
  { getRawTransaction := fun _ => .error (.rpcErr "unreachable node")
    decodeRawTransaction := fun _ => .error (.rpcErr "unreachable node")
    getAddressInfo := fun _ => .ok { is_mine := some true } }

/-- C4: for a transaction with exactly two outputs, one paying the
recipient address and the other a different wallet-owned (change)
address — in either vout order — and whose single funding input covers
the outputs (`o1.value + o2.value ≤ funding`, the ledger's
value-conservation precondition), the produced amounts satisfy
`funding = recipient + change + fee` exactly, hence within any tolerance
of 1e-8 BTC. -/
theorem conservation_two_outputs (client : NodeClient) (t : String)
    (o1 o2 : DecodedOutput) (outs : List DecodedOutput)
    (funding : Nat) (a : String) (info : AddressInfo)
    (houts : outs = [o1, o2] ∨ outs = [o2, o1])
    (h1 : o1.script_pub_key.address = some t)
    (h2 : o2.script_pub_key.address = some a)
    (hne : ¬(a = t))
    (hinfo : client.getAddressInfo a = .ok info)
    (hmine : info.is_mine = some true)
    (hvalid : o1.value + o2.value ≤ funding) :
    (classify client t outs).trader_output_amount = o1.value ∧
    (classify client t outs).miner_change_amount = o2.value ∧
    funding
      = (classify client t outs).trader_output_amount
        + (classify client t outs).miner_change_amount
        + computeFee funding (classify client t outs).trader_output_amount
            (classify client t outs).miner_change_amount := by
  have hmr2 : matchesRecipient t o2 = false := by
    unfold matchesRecipient
    rw [h2]
    simp [hne]
  have hown : ownedFlag client a = true := by
    unfold ownedFlag
    rw [hinfo]
    simp [hmine]
  have key : (classify client t outs).trader_output_amount = o1.value ∧
      (classify client t outs).miner_change_amount = o2.value := by
    rcases houts with h | h
    · subst h
      have hclass : classify client t [o1, o2]
          = classifyStep client t (classifyStep client t initialClassState o1) o2 := rfl
      have hst1 := classifyStep_trader_of_match client t initialClassState o1 t h1 rfl
      have hst2t := classifyStep_trader_of_not_match client t
        (classifyStep client t initialClassState o1) o2 hmr2
      have hst2c := classifyStep_change_of_match client t
        (classifyStep client t initialClassState o1) o2 a h2 hne hown
      exact ⟨by rw [hclass, hst2t.2, hst1.2.1], by rw [hclass, hst2c.2]⟩
    · subst h
      have hclass : classify client t [o2, o1]
          = classifyStep client t (classifyStep client t initialClassState o2) o1 := rfl
      have hst1c := classifyStep_change_of_match client t initialClassState o2 a h2 hne hown
      have hst2 := classifyStep_trader_of_match client t
        (classifyStep client t initialClassState o2) o1 t h1 rfl
      exact ⟨by rw [hclass, hst2.2.1], by rw [hclass, hst2.2.2.2, hst1c.2]⟩
  refine ⟨key.1, key.2, ?_⟩
  rw [key.1, key.2]
  have habs : computeFee funding o1.value o2.value = funding - (o1.value + o2.value) := by
    unfold computeFee
    omega
  omega

/-- C4 witness: funding 30 BTC, an owned change output of 9.9999 BTC in
vout position 0 and the recipient output of 20 BTC in vout position 1
(change-first order): the record satisfies the conservation law with fee
0.0001 BTC. -/
theorem conservation_two_outputs_witness :
    (classify ownClient "T"
      [mkOutput 999990000 "C", mkOutput 2000000000 "T"]).trader_output_amount
        = 2000000000 ∧
    (classify ownClient "T"
      [mkOutput 999990000 "C", mkOutput 2000000000 "T"]).miner_change_amount
        = 999990000 ∧
    3000000000
      = (classify ownClient "T"
          [mkOutput 999990000 "C", mkOutput 2000000000 "T"]).trader_output_amount
        + (classify ownClient "T"
            [mkOutput 999990000 "C", mkOutput 2000000000 "T"]).miner_change_amount
        + computeFee 3000000000
            (classify ownClient "T"
              [mkOutput 999990000 "C", mkOutput 2000000000 "T"]).trader_output_amount
            (classify ownClient "T"
              [mkOutput 999990000 "C", mkOutput 2000000000 "T"]).miner_change_amount :=
  conservation_two_outputs ownClient "T" (mkOutput 2000000000 "T")
    (mkOutput 999990000 "C") [mkOutput 999990000 "C", mkOutput 2000000000 "T"]
    3000000000 "C" { is_mine := some true } (Or.inr rfl)
    rfl rfl (by decide) rfl rfl (by decide)

/-- C5 (amended): when the previous transaction cannot be fetched or
decoded, the RPC error is propagated to the caller unchanged (no retry)
and the file system is left untouched; when the referenced output index
is out of range of the decoded previous transaction, the run ends in a
PANIC (process abort) rather than a propagated error, and the file system
is likewise untouched. -/
theorem runMainTail_notfound_behaviour (client : NodeClient)
    (fs : String → Option String) (txid t : String) (dtx : DecodedTransaction)
    (bh : Nat) (bhash : String) (input : DecodedInput) (prev_txid : String)
    (prev_vout : Nat)
    (h0 : dtx.vin[0]? = some input)
    (h1 : input.txid = some prev_txid)
    (h2 : input.vout = some prev_vout) :
    (∀ e, client.getRawTransaction prev_txid = .error e →
      runMainTail client fs txid t dtx bh bhash = (.err e, fs)) ∧
    (∀ prev_tx e, client.getRawTransaction prev_txid = .ok prev_tx →
      client.decodeRawTransaction prev_tx = .error e →
      runMainTail client fs txid t dtx bh bhash = (.err e, fs)) ∧
    (∀ prev_tx prev_decoded, client.getRawTransaction prev_txid = .ok prev_tx →
      client.decodeRawTransaction prev_tx = .ok prev_decoded →
      prev_decoded.vout[prev_vout]? = none →
      runMainTail client fs txid t dtx bh bhash
        = (.panicked "index out of bounds", fs)) := by
  refine ⟨?_, ?_, ?_⟩
  · intro e herr
    have hres : resolveFunding client dtx = .err e := by
      simp [resolveFunding, fetchPrevOutput, indexList, expectOpt, liftExcept,
        Outcome.bind, h0, h1, h2, herr]
    simp [runMainTail, hres]
  · intro prev_tx e hok herr
    have hres : resolveFunding client dtx = .err e := by
      simp [resolveFunding, fetchPrevOutput, indexList, expectOpt, liftExcept,
        Outcome.bind, h0, h1, h2, hok, herr]
    simp [runMainTail, hres]
  · intro prev_tx prev_decoded hok hdec hnone
    have hres : resolveFunding client dtx = .panicked "index out of bounds" := by
      simp [resolveFunding, fetchPrevOutput, indexList, expectOpt, liftExcept,
        Outcome.bind, h0, h1, h2, hok, hdec, hnone]
    simp [runMainTail, hres]

/-- C5 witness: with a client that cannot find the previous transaction,
the run propagates the RPC error and writes nothing. -/
theorem runMainTail_notfound_behaviour_witness :
    runMainTail errClient (fun _ => none) "t" "T" wTx 1 "h"
      = (.err (.rpcErr "unreachable node"), (fun _ => none)) :=
  (runMainTail_notfound_behaviour errClient (fun _ => none) "t" "T" wTx 1 "h"
      { txid := some "p", vout := some 0 } "p" 0 rfl rfl rfl).1
    (.rpcErr "unreachable node") rfl

/-- A previous transaction with no outputs at all, so that any referenced
output index is out of range. -/
def nfPrevTx : DecodedTransaction :=
  { txid := "p", vin := [], vout := [] }

/-- A node client that resolves the previous transaction to `nfPrevTx`. -/
def nfClient : NodeClient :=
  { getRawTransaction := fun _ => .ok "rawp"
    decodeRawTransaction := fun _ => .ok nfPrevTx
    getAddressInfo := fun _ => .error (.rpcErr "unknown address") }

/-- C5 counterexample: the referenced output index 0 does not exist in the
decoded previous transaction (its `vout` is empty): the run ends in a
panic — not in a propagated NotFoundError value as the claim states — and
no artifact is written. -/
theorem runMainTail_index_panic_cex :
    (runMainTail nfClient (fun _ => none) "t" "T" wTx 1 "h").1
      = .panicked "index out of bounds" ∧
    (runMainTail nfClient (fun _ => none) "t" "T" wTx 1 "h").2 outPath = none := by
  exact ⟨by decide, rfl⟩

/-- C6: after a successful resolution the run replaces the content of
`../out.txt` with the rendered report — unconditionally overwriting
whatever the file system previously held there and touching no other
path — and the report consists of exactly the ten fields in the fixed
order, each on its own line, with every amount carrying exactly eight
digits after the decimal point. -/
theorem runMainTail_report_layout (client : NodeClient)
    (fs : String → Option String) (txid t : String) (dtx : DecodedTransaction)
    (bh : Nat) (bhash : String) (fa : String) (f : Nat)
    (h : resolveFunding client dtx = .ok (fa, f))
    (r : ProvenanceRecord)
    (hr : r = { txid := txid
                fundingAddress := fa
                fundingAmount := f
                recipientAddress := (classify client t dtx.vout).trader_output_address
                recipientAmount := (classify client t dtx.vout).trader_output_amount
                changeAddress := (classify client t dtx.vout).miner_change_address
                changeAmount := (classify client t dtx.vout).miner_change_amount
                fee := computeFee f (classify client t dtx.vout).trader_output_amount
                        (classify client t dtx.vout).miner_change_amount
                blockHeight := bh
                blockHash := bhash }) :
    (runMainTail client fs txid t dtx bh bhash).2 = writeReport fs r ∧
    writeReport fs r outPath = some (renderReport r) ∧
    (∀ p, ¬(p = outPath) → writeReport fs r p = fs p) ∧
    reportLines r
      = [r.txid, r.fundingAddress, fmt8 r.fundingAmount, r.recipientAddress,
         fmt8 r.recipientAmount, r.changeAddress, fmt8 r.changeAmount,
         fmt8 r.fee, toString r.blockHeight, r.blockHash] ∧
    (∀ n, (frac8 n).length = 8) := by
  subst hr
  refine ⟨?_, ?_, ?_, rfl, ?_⟩
  · simp [runMainTail, h]
  · simp [writeReport]
  · intro p hp
    simp [writeReport, hp]
  · intro n
    show (List.map _ (List.range 8)).length = 8
    rw [List.length_map, List.length_range]

/-- C6 witness record: the record produced for the concrete witness
client and transaction. -/
def wRecord : ProvenanceRecord :=
  { txid := "t"
    fundingAddress := "A"
    fundingAmount := 5000000000
    recipientAddress := ""
    recipientAmount := 0
    changeAddress := ""
    changeAmount := 0
    fee := 5000000000
    blockHeight := 1
    blockHash := "h" }

/-- C6 witness: on the concrete run the artifact holds the rendered
report of `wRecord` and a different path is untouched. -/
theorem runMainTail_report_layout_witness :
    (runMainTail wClient (fun _ => none) "t" "T" wTx 1 "h").2 outPath
      = some (renderReport wRecord) ∧
    (runMainTail wClient (fun _ => none) "t" "T" wTx 1 "h").2 "other" = none := by
  have H := runMainTail_report_layout wClient (fun _ => none) "t" "T" wTx 1 "h"
    "A" 5000000000 (by decide) wRecord (by decide)
  exact ⟨by rw [H.1]; exact H.2.1, by rw [H.1]; exact H.2.2.1 "other" (by decide)⟩

/-- C7: an output whose ownership lookup fails is simply skipped: the
loop iteration leaves the classification state unchanged, and the overall
classification of a list containing such an output equals the
classification of the list without it — the failure is never propagated
and the resolution does not abort. -/
theorem classify_lookup_error_nonfatal (client : NodeClient) (t : String)
    (pre post : List DecodedOutput) (o : DecodedOutput) (a : String) (e : RpcError)
    (haddr : o.script_pub_key.address = some a)
    (hne : ¬(a = t))
    (herr : client.getAddressInfo a = .error e) :
    (∀ st, classifyStep client t st o = st) ∧
    classify client t (pre ++ o :: post) = classify client t (pre ++ post) := by
  have hstep : ∀ st, classifyStep client t st o = st := by
    intro st
    simp [classifyStep, haddr, hne, herr]
  refine ⟨hstep, ?_⟩
  unfold classify
  rw [List.foldl_append, List.foldl_append, List.foldl_cons, hstep]

/-- C7 witness: with the always-failing lookup client, the middle output
paying "X" is skipped and classification of the three outputs equals the
classification of the remaining two. -/
theorem classify_lookup_error_nonfatal_witness :
    classify errClient "T" [mkOutput 3 "T", mkOutput 7 "X", mkOutput 4 "Y"]
      = classify errClient "T" [mkOutput 3 "T", mkOutput 4 "Y"] :=
  (classify_lookup_error_nonfatal errClient "T" [mkOutput 3 "T"] [mkOutput 4 "Y"]
    (mkOutput 7 "X") "X" (.rpcErr "unknown address") rfl (by decide) rfl).2

/-- A coinbase-spending transaction: its only input carries neither a
previous txid nor a previous vout. -/
def cbTx : DecodedTransaction :=
  { txid := "c", vin := [{ txid := none, vout := none }], vout := [] }

/-- C9: evaluation of the first input's output reference is a partial
operation: with no inputs at all the indexing `&decoded_tx.vin[0]` panics,
with a missing `txid` or `vout` the corresponding `expect` panics with its
message — no error value is returned in any of these cases — and under the
precondition (a first input carrying both fields) the evaluation cannot
panic: it proceeds directly to the dereference of the previous output. -/
theorem resolveFunding_panic_conditions (client : NodeClient)
    (dtx : DecodedTransaction) :
    (dtx.vin = [] → resolveFunding client dtx = .panicked "index out of bounds") ∧
    (∀ i rest, dtx.vin = i :: rest → i.txid = none →
      resolveFunding client dtx = .panicked "Input should have txid") ∧
    (∀ i rest p, dtx.vin = i :: rest → i.txid = some p → i.vout = none →
      resolveFunding client dtx = .panicked "Input should have vout") ∧
    (∀ i rest p v, dtx.vin = i :: rest → i.txid = some p → i.vout = some v →
      resolveFunding client dtx = fetchPrevOutput client p v) := by
  refine ⟨?_, ?_, ?_, ?_⟩
  · intro h
    simp [resolveFunding, indexList, h, Outcome.bind]
  · intro i rest h ht
    simp [resolveFunding, indexList, h, ht, expectOpt, Outcome.bind]
  · intro i rest p h ht hv
    simp [resolveFunding, indexList, h, ht, hv, expectOpt, Outcome.bind]
  · intro i rest p v h ht hv
    simp [resolveFunding, indexList, h, ht, hv, expectOpt, Outcome.bind]

/-- C9 witness: the coinbase-like input panics on the `txid` expect, and
the well-formed first input of `wTx` reaches the dereference stage. -/
theorem resolveFunding_panic_conditions_witness :
    resolveFunding errClient cbTx = .panicked "Input should have txid" ∧
    resolveFunding errClient wTx = fetchPrevOutput errClient "p" 0 :=
  ⟨(resolveFunding_panic_conditions errClient cbTx).2.1
      { txid := none, vout := none } [] rfl rfl,
   (resolveFunding_panic_conditions errClient wTx).2.2.2
      { txid := some "p", vout := some 0 } [] "p" 0 rfl rfl rfl⟩

end Provenance
